import Mathlib

/-!
# Verification of the rosettasciio hspy writer/reader and jobin_yvon scale extraction

Shallow embedding of `src/rsciio/hspy/_api.py` (`file_writer`, `file_reader`,
`HyperspyWriter._store_data`, `HyperspyWriter._get_object_dset`) and of the
axis-scale extraction `JobinYvonXMLReader._get_scale` from
`src/rsciio/jobin_yvon/api.py`.

The recursive hierarchical writer/reader (module `rsciio._hierarchical`,
class methods `HierarchicalWriter.write` and `HierarchicalReader.read`) is
referenced by the hspy module but its source is not part of the inspected
tree; those parts are modelled from the specification and marked
`Modelled from the spec:` in their doc comments.

Numbers stored in datasets and attributes are modelled as rationals (ℚ),
strings as Lean `String`, dtypes as opaque string tags.
-/

namespace RSciIO

/-- A leaf or interior value of a nested metadata mapping
(`metadata` / `original_metadata` of a signal dictionary). -/
inductive Meta where
  | num (q : ℚ)
  | boolV (b : Bool)
  | str (s : String)
  | strList (xs : List String)
  | arr (xs : List ℚ)
  | node (entries : List (String × Meta))
deriving Repr

/-- A node of the on-disk hierarchical container (HDF5 model): scalar
attributes, dense numeric datasets with a shape, variable-length string
datasets, variable-length (ragged) numeric datasets tagged with a dtype,
and child groups. -/
inductive CValue where
  | aNum (q : ℚ)
  | aBool (b : Bool)
  | aStr (s : String)
  | aNat (n : ℕ)
  | dNum (dtype : String) (shape : List ℕ) (vals : List ℚ)
  | dStr (vals : List String)
  | dVlen (dtype : String) (rows : List (List ℚ))
  | group (entries : List (String × CValue))
deriving Repr

/-- Modelled from the spec: the Leaf Classifier / recursive descent of
`HierarchicalWriter.write` (module `rsciio._hierarchical`, not in the
inspected tree).  A nested mapping becomes a child group, a numeric or
boolean or string value becomes an attribute, a list of strings becomes a
variable-length string dataset, a numeric array becomes a dense dataset. -/
def writeMeta : Meta → CValue
  | .num q => .aNum q
  | .boolV b => .aBool b
  | .str s => .aStr s
  | .strList xs => .dStr xs
  | .arr xs => .dNum "float64" [xs.length] xs
  | .node es => .group (writeEntries es)
where
  /-- Write the entries of a nested mapping, preserving order. -/
  writeEntries : List (String × Meta) → List (String × CValue)
  | [] => []
  | (k, v) :: rest => (k, writeMeta v) :: writeEntries rest

/-- Modelled from the spec: the inverse reconstruction performed by
`HierarchicalReader.read` (module `rsciio._hierarchical`, not in the
inspected tree): groups recurse into nested mappings, attributes become
scalars, datasets become arrays. -/
def readMeta : CValue → Meta
  | .aNum q => .num q
  | .aBool b => .boolV b
  | .aStr s => .str s
  | .aNat n => .num n
  | .dNum _ _ xs => .arr xs
  | .dStr xs => .strList xs
  | .dVlen _ rows => .node (rows.enum.map fun p => (toString p.1, .arr p.2))
  | .group es => .node (readEntries es)
where
  /-- Read back the entries of a child group, preserving order. -/
  readEntries : List (String × CValue) → List (String × Meta)
  | [] => []
  | (k, v) :: rest => (k, readMeta v) :: readEntries rest

/-! ## Axis descriptors -/

/-- Fields shared by every axis descriptor. -/
structure AxisCommon where
  name : String
  units : String
  navigate : Bool
  binned : Bool
deriving Repr, DecidableEq

/-- An axis descriptor: uniform (offset + constant spacing + size) or
explicit (full list of coordinate values). -/
inductive AxisSpec where
  | uniform (offset scale : ℚ) (size : ℕ) (c : AxisCommon)
  | explicitAxis (values : List ℚ) (c : AxisCommon)
deriving Repr, DecidableEq

/-- Modelled from the spec: `HierarchicalWriter.write` stores each axis as a
child group tagged with its position index so that read-back order is
unambiguous (spec section 4.3 step 4). -/
def writeAxis (i : ℕ) : AxisSpec → CValue
  | .uniform offset scale size c =>
      .group [("index", .aNat i), ("name", .aStr c.name),
        ("units", .aStr c.units), ("navigate", .aBool c.navigate),
        ("binned", .aBool c.binned), ("offset", .aNum offset),
        ("scale", .aNum scale), ("size", .aNat size)]
  | .explicitAxis values c =>
      .group [("index", .aNat i), ("name", .aStr c.name),
        ("units", .aStr c.units), ("navigate", .aBool c.navigate),
        ("binned", .aBool c.binned),
        ("axis", .dNum "float64" [values.length] values)]

/-- The ordered list of axis child groups written for an axes list. -/
def writeAxes (axes : List AxisSpec) : List (String × CValue) :=
  axes.enum.map fun p => ("axis-" ++ toString p.1, writeAxis p.1 p.2)

/-- Look up a string-keyed entry of a group's entry list. -/
def getEntry (es : List (String × CValue)) (k : String) : Option CValue :=
  (es.find? fun p => p.1 = k).map Prod.snd

/-- The natural-number attribute `k` of a group, when present. -/
def getAttrNat (v : CValue) (k : String) : Option ℕ :=
  match v with
  | .group es =>
      match getEntry es k with
      | some (.aNat n) => some n
      | _ => none
  | _ => none

/-- Modelled from the spec: reconstruct one axis descriptor from its child
group (`HierarchicalReader.read`). A group holding an `offset` attribute is
a uniform axis; otherwise the explicit value list is read from the `axis`
dataset. -/
def readAxis (v : CValue) : Option AxisSpec :=
  match v with
  | .group es => do
      let name ← match getEntry es "name" with
        | some (.aStr s) => some s | _ => none
      let units ← match getEntry es "units" with
        | some (.aStr s) => some s | _ => none
      let navigate ← match getEntry es "navigate" with
        | some (.aBool b) => some b | _ => none
      let binned ← match getEntry es "binned" with
        | some (.aBool b) => some b | _ => none
      let c : AxisCommon := ⟨name, units, navigate, binned⟩
      match getEntry es "offset", getEntry es "scale", getEntry es "size" with
      | some (.aNum o), some (.aNum sc), some (.aNat n) =>
          some (.uniform o sc n c)
      | _, _, _ =>
          match getEntry es "axis" with
          | some (.dNum _ _ vals) => some (.explicitAxis vals c)
          | _ => none
  | _ => none

/-- Find the axis child group carrying stored position index `i`. -/
def findAxisWithIndex (children : List (String × CValue)) (i : ℕ) :
    Option CValue :=
  (children.find? fun p => getAttrNat p.2 "index" = some i).map Prod.snd

/-- Modelled from the spec: `HierarchicalReader.read` reassembles the axes
in the order given by their stored position index, not by backend child
order (spec section 4.4). -/
def readAxesFrom (children : List (String × CValue)) : ℕ → ℕ → Option (List AxisSpec)
  | _, 0 => some []
  | i, n + 1 => do
      let c ← findAxisWithIndex children i
      let a ← readAxis c
      let rest ← readAxesFrom children (i + 1) n
      pure (a :: rest)

/-- Reassemble all axes of an experiment group's `axes` child. -/
def readAxes (children : List (String × CValue)) : Option (List AxisSpec) :=
  readAxesFrom children 0 children.length

/-! ## Signal data and the dataset store strategy -/

/-- One row of a ragged (variable-length) array: a numpy sub-array with its
own dtype. -/
structure RaggedRow where
  dtype : String
  vals : List ℚ
deriving Repr, DecidableEq

/-- The `data` field of a signal dictionary: a dense n-dimensional array
(dtype, shape, row-major values) or a ragged array of rows. -/
inductive SignalData where
  | dense (dtype : String) (shape : List ℕ) (vals : List ℚ)
  | ragged (rows : List RaggedRow)
deriving Repr, DecidableEq

/-- `signal["data"][0].dtype`, as evaluated in `HyperspyWriter.__init__`
(line 70 of `hspy/_api.py`): the dtype of the array's first element.
`none` models the `IndexError` Python raises on an empty array. -/
def firstElementDtype : SignalData → Option String
  | .dense dt shape _ =>
      match shape with
      | [] => none
      | n :: _ => if n = 0 then none else some dt
  | .ragged rows => rows.head?.map RaggedRow.dtype

/-- Memory layout of an in-memory numpy array (`data.flags.c_contiguous`). -/
inductive NpLayout where
  | cContiguous
  | nonContiguous
deriving Repr, DecidableEq

/-- The value handed to `HyperspyWriter._store_data`: an out-of-core dask
array carrying its chunk structure, or an in-memory numpy array with its
layout flag. -/
inductive ArrayValue where
  | dask (chunks : List ℕ) (vals : List ℚ)
  | np (layout : NpLayout) (vals : List ℚ)
deriving Repr, DecidableEq

/-- A pre-created destination dataset with its chunk shape. -/
structure Dset where
  chunks : List ℕ
  contents : List ℚ
deriving Repr, DecidableEq

/-- Which physical write path `_store_data` took. -/
inductive StoreMethod where
  | streamCopy
  | writeDirect
  | elementAssign
deriving Repr, DecidableEq

/-- Outcome of `_store_data`: the destination dataset after the write, the
write path taken, and — when streaming an out-of-core array — the chunk
shape of the source at the moment of the block-by-block copy. -/
structure StoreResult where
  dset : Dset
  method : StoreMethod
  streamedChunks : Option (List ℕ)
deriving Repr, DecidableEq

/-- `HyperspyWriter._store_data` (lines 72-81 of `hspy/_api.py`): a dask
array is rechunked to the destination's chunk shape when the chunkings
differ and then streamed with `da.store`; a C-contiguous numpy array is
written with one `write_direct` bulk call; any other numpy array is
assigned element-wise via `dset[:] = data`. -/
def store_data (data : ArrayValue) (dset : Dset) : StoreResult :=
  match data with
  | .dask chunks vals =>
      let data' : ArrayValue :=
        if chunks ≠ dset.chunks then .dask dset.chunks vals
        else .dask chunks vals
      match data' with
      | .dask chunks' vals' =>
          { dset := { dset with contents := vals' },
            method := .streamCopy, streamedChunks := some chunks' }
      | .np _ vals' =>
          { dset := { dset with contents := vals' },
            method := .streamCopy, streamedChunks := none }
  | .np .cContiguous vals =>
      { dset := { dset with contents := vals },
        method := .writeDirect, streamedChunks := none }
  | .np .nonContiguous vals =>
      { dset := { dset with contents := vals },
        method := .elementAssign, streamedChunks := none }

/-- The variable-length dataset created for ragged data. -/
structure VlenDset where
  dtype : String
  chunks : ℕ
  rows : List (List ℚ)
deriving Repr, DecidableEq

/-- `HyperspyWriter._get_object_dset` (lines 83-92 of `hspy/_api.py`):
creates the h5py dataset for ragged data with element type
`special_dtype(vlen=data[0].dtype)`; a missing `chunks` argument defaults
to 1.  `none` models the `IndexError` on empty data. -/
def get_object_dset (data : List RaggedRow) (chunks : Option ℕ) :
    Option VlenDset :=
  match data.head? with
  | none => none
  | some r0 => some { dtype := r0.dtype, chunks := chunks.getD 1, rows := [] }

/-- Writing the rows of a ragged array into a variable-length dataset:
each row is written independently. -/
def writeRaggedRows (dset : VlenDset) (data : List RaggedRow) : VlenDset :=
  { dset with rows := data.map RaggedRow.vals }

/-- The dtype tag governing the stored row `i` of a variable-length
dataset: the dataset's single element dtype, for every row in range. -/
def storedRowDtype (dset : VlenDset) (i : ℕ) : Option String :=
  if i < dset.rows.length then some dset.dtype else none

/-! ## The signal record and the `file_writer` entry point -/

/-- `signal["tmp_parameters"]`: the ephemeral hints consulted by
`file_writer` (lines 168-170 of `hspy/_api.py`); `.get` with default `""`
is modelled by `Option`. -/
structure TmpParams where
  original_folder : Option String
  original_filename : Option String
  original_extension : Option String
deriving Repr, DecidableEq

/-- An open backing file handle with its h5py mode string. -/
structure FileHandle where
  mode : String
deriving Repr, DecidableEq

/-- The signal dictionary handed to `file_writer`.  `lazyAttr` is
`signal["attributes"]["_lazy"]`; `backingHandle` is what
`get_file_handle(signal["data"], warn=False)` would return. -/
structure SignalRecord where
  data : SignalData
  axes : List AxisSpec
  metadata : Meta
  original_metadata : Meta
  tmp_parameters : TmpParams
  lazyAttr : Bool
  backingHandle : Option FileHandle
deriving Repr

/-- A Python argument that must be a boolean but might not be: used for the
`isinstance(write_dataset, bool)` check. -/
inductive PyParam where
  | bool (b : Bool)
  | nonBool
deriving Repr, DecidableEq

/-- The keyword options of `file_writer`. -/
structure WriteOptions where
  chunks : Option (List ℕ)
  compression : String
  close_file : Bool
  write_dataset : PyParam
  mode : Option String
  shuffle : Option Bool
deriving Repr, DecidableEq

/-- Errors raised by `file_writer`, in the order they appear in the
source. -/
inductive WriteErr where
  /-- "`write_dataset` argument has to be a boolean." (line 162) -/
  | valueErrorNonBool
  /-- "File opened in read only mode. ..." (lines 178-182) -/
  | osErrorReadOnly
  /-- "`mode='a'` is required to use `write_dataset=False`." (line 189) -/
  | valueErrorMode
  /-- `KeyError` from `signal["metadata"]["General"]["title"]` (line 195). -/
  | keyError
  /-- `IndexError` from `signal["data"][0]` in `HyperspyWriter.__init__`. -/
  | indexError
deriving Repr, DecidableEq

/-- Observable filesystem interactions of a `file_writer` call, in program
order.  An error raised with an empty trace happened before any byte of
the target file was touched. -/
inductive FsEvent where
  | openFile (mode : String)
  | writeRootAttrs
  | requireGroup (name : String)
  | writeGroup (name : String)
  | closeFile
deriving Repr, DecidableEq

/-- Modelled from the spec: the writer's current library format version
(the `version` constant of module `rsciio._hierarchical`, which is not part
of the inspected tree). -/
def version : String := "current-library-version"

/-- The group-name sanitization of `file_writer` (lines 196-199 of
`hspy/_api.py`): an empty title becomes `__unnamed__`, and every
path-separator character is replaced by a hyphen. -/
def sanitizeGroupName (title : String) : String :=
  let group_name := if title = "" then "__unnamed__" else title
  if group_name.data.contains '/' then
    ⟨group_name.data.map fun ch => if ch = '/' then '-' else ch⟩
  else group_name

/-- Look up the sub-value stored under key `k` of a nested mapping. -/
def metaGet (m : Meta) (k : String) : Option Meta :=
  match m with
  | .node es => (es.find? fun p => p.1 = k).map Prod.snd
  | _ => none

/-- `signal["metadata"]["General"]["title"]` when it is a string;
`none` models the `KeyError`/type failure. -/
def getTitle (m : Meta) : Option String :=
  match metaGet m "General" with
  | some g =>
      match metaGet g "title" with
      | some (.str s) => some s
      | _ => none
  | none => none

/-- Apply `f` to the first entry keyed `k` of an entry list. -/
def updEntry (key : String) (f : Meta → Meta) :
    List (String × Meta) → List (String × Meta)
  | [] => []
  | (k, v) :: rest =>
      if k = key then (k, f v) :: rest else (k, v) :: updEntry key f rest

/-- Apply `f` to the sub-value under key `k` of a nested mapping. -/
def metaUpd (m : Meta) (k : String) (f : Meta → Meta) : Meta :=
  match m with
  | .node es => .node (updEntry k f es)
  | other => other

/-- The metadata tree with `General.title` replaced by `s`. -/
def metaSetTitle (m : Meta) (s : String) : Meta :=
  metaUpd m "General" fun g => metaUpd g "title" fun _ => .str s

/-- The dataset written for the main data array. -/
def writeSignalData : SignalData → CValue
  | .dense dt shape vals => .dNum dt shape vals
  | .ragged rows =>
      .dVlen ((rows.head?.map RaggedRow.dtype).getD "") (rows.map RaggedRow.vals)

/-- Modelled from the spec: the recursive descent of
`HierarchicalWriter.write` (module `rsciio._hierarchical`, not in the
inspected tree) over one experiment group: the main dataset (skipped when
`write_dataset` is false), the ordered axis groups, and the metadata
trees.  Following the spec's concrete scenario (section 8), the stored
`General.title` is the sanitized group name, which is what a read-back
reports. -/
def writeExperimentGroup (signal : SignalRecord) (groupName : String)
    (wd : Bool) : List (String × CValue) :=
  (if wd then [("data", writeSignalData signal.data)] else []) ++
    [("axes", .group (writeAxes signal.axes)),
     ("metadata", writeMeta (metaSetTitle signal.metadata groupName)),
     ("original_metadata", writeMeta signal.original_metadata)]

/-- The observable outcome of a successful `file_writer` call. -/
structure WriteOut where
  file : List (String × CValue)
  groupName : String
  handleMode : String
  reusedHandle : Bool
  closed : Bool
  signalAfter : SignalRecord
deriving Repr

/-- `Path(folder, name)`. -/
def pathJoin (folder name : String) : String :=
  if folder = "" then name else folder ++ "/" ++ name

/-- `Path(folder, f"{fname}.{ext}")` built from the tmp parameters
(lines 168-171 of `hspy/_api.py`). -/
def originalPath (t : TmpParams) : String :=
  pathJoin (t.original_folder.getD "")
    ((t.original_filename.getD "") ++ "." ++ (t.original_extension.getD ""))

/-- Lines 192 onward of `file_writer`: stamp the root attributes, require
the `Experiments` group, derive the sanitized experiment group name, build
the `HyperspyWriter` (whose `__init__` evaluates `signal["data"][0].dtype`)
and run its `write`, then close the handle if requested. -/
def writerBody (signal : SignalRecord) (opts : WriteOptions) (wd : Bool)
    (f : FileHandle) (ev0 : List FsEvent) (reused : Bool) :
    Except WriteErr WriteOut × List FsEvent :=
  let ev1 := ev0 ++ [.writeRootAttrs, .requireGroup "Experiments"]
  match getTitle signal.metadata with
  | none => (.error .keyError, ev1)
  | some title =>
      let group_name := sanitizeGroupName title
      let ev2 := ev1 ++ [.requireGroup group_name]
      match firstElementDtype signal.data with
      | none => (.error .indexError, ev2)
      | some _ =>
          let expg := writeExperimentGroup signal group_name wd
          let rootEntries : List (String × CValue) :=
            [("file_format", .aStr "HyperSpy"),
             ("file_format_version", .aStr version),
             ("Experiments", .group [(group_name, .group expg)])]
          let ev3 := ev2 ++ [.writeGroup group_name]
          let ev4 := if opts.close_file then ev3 ++ [.closeFile] else ev3
          (.ok { file := rootEntries, groupName := group_name,
                 handleMode := f.mode, reusedHandle := reused,
                 closed := opts.close_file, signalAfter := signal }, ev4)

/-- `file_writer` of `hspy/_api.py` (lines 128-214).  `absPath` models
`Path(filename).absolute()` (the state of the working directory).  Returns
the outcome together with the trace of filesystem interactions. -/
def file_writer (absPath : String → String) (filename : String)
    (signal : SignalRecord) (opts : WriteOptions) :
    Except WriteErr WriteOut × List FsEvent :=
  match opts.write_dataset with
  | .nonBool => (.error .valueErrorNonBool, [])
  | .bool wd =>
      let original_path := originalPath signal.tmp_parameters
      let f0 : Option FileHandle :=
        if signal.lazyAttr ∧ absPath filename = original_path then
          signal.backingHandle
        else none
      match f0 with
      | some h =>
          if h.mode = "r" then (.error .osErrorReadOnly, [])
          else writerBody signal opts wd h [] true
      | none =>
          let mode := opts.mode.getD (if wd then "w" else "a")
          if mode ≠ "a" ∧ ¬ wd then (.error .valueErrorMode, [])
          else writerBody signal opts wd ⟨mode⟩ [.openFile mode] false

/-! ## The reader -/

/-- Fatal read errors. -/
inductive ReadErr where
  /-- "The file is not a valid HyperSpy hdf5 file" (line 41): the root
  lacks the required format attributes. -/
  | invalidFormat
  /-- A required structural group is absent or malformed. -/
  | structureError
deriving Repr, DecidableEq

/-- Non-fatal read diagnostics. -/
inductive ReadWarning where
  /-- The stored `file_format_version` is not a version this library
  knows; the read proceeds best-effort. -/
  | unknownVersion
deriving Repr, DecidableEq

/-- One reconstructed signal record (the round-trip-relevant fields). -/
structure ReadSignal where
  data : SignalData
  axes : List AxisSpec
  metadata : Meta
  original_metadata : Meta
deriving Repr

/-- Reconstruct the main data array from its dataset. -/
def readSignalData : CValue → Option SignalData
  | .dNum dt shape vals => some (.dense dt shape vals)
  | .dVlen dt rows => some (.ragged (rows.map fun v => ⟨dt, v⟩))
  | _ => none

/-- Modelled from the spec: reconstruction of one experiment group by
`HierarchicalReader.read` (module `rsciio._hierarchical`, not in the
inspected tree): the main dataset, the axes reassembled by stored index,
and the two metadata trees. -/
def readExperiment (v : CValue) : Option ReadSignal :=
  match v with
  | .group es => do
      let dataC ← getEntry es "data"
      let data ← readSignalData dataC
      let axesC ← match getEntry es "axes" with
        | some (.group cs) => some cs
        | _ => none
      let axes ← readAxes axesC
      let md ← (getEntry es "metadata").map readMeta
      let omd ← (getEntry es "original_metadata").map readMeta
      pure ⟨data, axes, md, omd⟩
  | _ => none

/-- Read every experiment group of the `Experiments` group in order. -/
def readExperiments : List (String × CValue) → Option (List ReadSignal)
  | [] => some []
  | (_, v) :: rest => do
      let r ← readExperiment v
      let rs ← readExperiments rest
      pure (r :: rs)

/-- `file_reader` of `hspy/_api.py` (lines 95-122) composed with the
modelled `HierarchicalReader.read` (spec sections 4.4 and 7): the format
tag and version tag are checked before any structural interpretation; an
unrecognized version yields a warning and a best-effort read, a missing
format tag rejects the container outright. -/
def file_reader (root : List (String × CValue)) (_lazy : Bool) :
    Except ReadErr (List ReadWarning × List ReadSignal) :=
  match getEntry root "file_format" with
  | some (.aStr fmt) =>
      if fmt = "HyperSpy" then
        match getEntry root "file_format_version" with
        | some (.aStr v) =>
            let warnings : List ReadWarning :=
              if v = version then [] else [.unknownVersion]
            match getEntry root "Experiments" with
            | some (.group exps) =>
                match readExperiments exps with
                | some signals => .ok (warnings, signals)
                | none => .error .structureError
            | _ => .error .invalidFormat
        | _ => .error .invalidFormat
      else .error .invalidFormat
  | _ => .error .invalidFormat

/-! ## The jobin_yvon axis-scale extraction -/

/-- `np.isclose(a, b)` with the default tolerances
`rtol=1e-5, atol=1e-8`: `|a - b| <= atol + rtol * |b|`. -/
def npIsclose (a b : ℚ) : Bool :=
  decide (|a - b| ≤ 1 / 100000000 + 1 / 100000 * |b|)

/-- `np.amin`: the minimum of the array's values. -/
def listMin : List ℚ → ℚ
  | [] => 0
  | a :: rest => rest.foldl min a

/-- `np.abs(array[0] - array[1])`. -/
def absDiffBegin (arr : List ℚ) : ℚ :=
  |arr.getD 0 0 - arr.getD 1 0|

/-- `np.abs(array[-1] - array[-2])`. -/
def absDiffEnd (arr : List ℚ) : ℚ :=
  |arr.getD (arr.length - 1) 0 - arr.getD (arr.length - 2) 0|

/-- `np.abs(abs_diff_begin - abs_diff_end)`. -/
def absDiffCompare (arr : List ℚ) : ℚ :=
  |absDiffBegin arr - absDiffEnd arr|

/-- The relative variation of the axis spacing as `_get_scale` computes it:
the absolute spacing difference between the first two and last two values,
divided by the array minimum (`rel_diff_compare`, line 303 of
`jobin_yvon/api.py`). -/
def relSpacingVariation (arr : List ℚ) : ℚ :=
  absDiffCompare arr / listMin arr

/-- `np.abs(array[0] - array[-1]) / (array.size - 1)` (line 296). -/
def scaleFormula (arr : List ℚ) : ℚ :=
  |arr.getD 0 0 - arr.getD (arr.length - 1) 0| / ((arr.length - 1 : ℕ) : ℚ)

/-- The warnings `_get_scale` can log. -/
inductive ScaleWarning where
  /-- "The relative variation of the ...-axis-scale is greater than 1%." -/
  | relVariation
  /-- "The difference between consecutive entrys (scale) ... varies." -/
  | scaleVaries
deriving Repr, DecidableEq

/-- `JobinYvonXMLReader._get_scale` (lines 278-312 of
`jobin_yvon/api.py`): returns the scale `|array[0] - array[-1]|/(size-1)`
and the warnings logged on the way; `useUniform` is
`self._use_uniform_signal_axis`.  `none` models the `AssertionError` for
arrays with fewer than two values.  The guarded division
`abs_diff_compare / min_array` is only reached when `min_array` is not
close to zero, hence nonzero. -/
def get_scale (useUniform : Bool) (array : List ℚ) :
    Option (ℚ × List ScaleWarning) :=
  match array with
  | [] => none
  | [_] => none
  | a0 :: a1 :: rest =>
      let arr := a0 :: a1 :: rest
      let scale := scaleFormula arr
      if 3 ≤ arr.length then
        let w1 : List ScaleWarning :=
          if npIsclose (listMin arr) 0 = false ∧
              relSpacingVariation arr > 1 / 100 ∧ useUniform = true then
            [.relVariation]
          else []
        let w2 : List ScaleWarning :=
          if npIsclose (absDiffCompare arr) 0 = false ∧ useUniform = true then
            [.scaleVaries]
          else []
        some (scale, w1 ++ w2)
      else some (scale, [])

/-! ## Well-formedness and roundtrip helper lemmas -/

/-- A data array the writer can represent without loss: it has a first
element (so `signal["data"][0].dtype` is defined), and a ragged array's
rows all carry the dtype of the first row — the invariant the format
stores a single per-dataset element dtype for (spec section 3). -/
def dataWritable : SignalData → Bool
  | .dense _ shape _ =>
      match shape with
      | [] => false
      | n :: _ => n != 0
  | .ragged rows =>
      match rows with
      | [] => false
      | r0 :: rest => rest.all fun r => r.dtype == r0.dtype

/-! ## The writer run and inversion lemmas -/

/-- The root entry list a successful write produces. -/
def writtenFile (signal : SignalRecord) (groupName : String) (wd : Bool) :
    List (String × CValue) :=
  [("file_format", .aStr "HyperSpy"),
   ("file_format_version", .aStr version),
   ("Experiments",
     .group [(groupName, .group (writeExperimentGroup signal groupName wd))])]

/-! ## Concrete sample inputs -/

/-- `true` exactly on `Except.ok`. -/
def exceptIsOk : Except ε α → Bool
  | .ok _ => true
  | .error _ => false

def sampleAxisC : AxisCommon := ⟨"x", "nm", false, false⟩

/-- The spec's concrete scenario: a 3×4 dense array, one uniform axis with
offset 0, scale 1/2, size 3, and title `a/b`. -/
def sampleSignal : SignalRecord :=
  { data := .dense "float64" [3, 4] [0, 1, 2, 3, 4, 5, 6, 7, 8, 9, 10, 11],
    axes := [.uniform 0 (1 / 2) 3 sampleAxisC],
    metadata := .node [("General", .node [("title", .str "a/b")])],
    original_metadata := .node [],
    tmp_parameters := ⟨none, none, none⟩,
    lazyAttr := false,
    backingHandle := none }

def sampleOpts : WriteOptions :=
  { chunks := none, compression := "gzip", close_file := true,
    write_dataset := .bool true, mode := none, shuffle := none }

def sampleResult : Except WriteErr WriteOut × List FsEvent :=
  file_writer id "destination.hspy" sampleSignal sampleOpts

def sampleOut : WriteOut :=
  match sampleResult.1 with
  | .ok o => o
  | .error _ =>
      { file := [], groupName := "", handleMode := "", reusedHandle := false,
        closed := false, signalAfter := sampleSignal }

/-- A record exercising ragged data, a non-uniform axis and unicode
metadata. -/
def raggedSignal : SignalRecord :=
  { data := .ragged [⟨"float64", [1, 2, 3]⟩, ⟨"float64", [4, 5]⟩,
      ⟨"float64", [6]⟩],
    axes := [.explicitAxis [1, 3 / 2, 7] ⟨"λ", "µm", false, true⟩],
    metadata := .node [("General", .node [("title", .str "αβγ")]),
      ("note", .str "ünïcode")],
    original_metadata := .node [("k", .num (5 / 3))],
    tmp_parameters := ⟨none, none, none⟩,
    lazyAttr := false,
    backingHandle := none }

/-- A lazily-backed record whose backing file is open read-only. -/
def lazyReadOnlySignal : SignalRecord :=
  { data := .dense "float64" [1] [0],
    axes := [],
    metadata := .node [("General", .node [("title", .str "t")])],
    original_metadata := .node [],
    tmp_parameters := ⟨some "dir", some "f", some "hspy"⟩,
    lazyAttr := true,
    backingHandle := some ⟨"r"⟩ }

/-- A lazily-backed record whose backing file handle is writable. -/
def lazyWritableSignal : SignalRecord :=
  { lazyReadOnlySignal with
    tmp_parameters := ⟨some "", some "f", some "hspy"⟩,
    backingHandle := some ⟨"r+"⟩ }

/-- Options combining `write_dataset=False` with the truncating mode
`'w'`. -/
def noDatasetTruncOpts : WriteOptions :=
  { chunks := none, compression := "gzip", close_file := true,
    write_dataset := .bool false, mode := some "w", shuffle := none }

/-- Options with a non-boolean `write_dataset`. -/
def nonBoolOpts : WriteOptions :=
  { chunks := none, compression := "gzip", close_file := true,
    write_dataset := .nonBool, mode := none, shuffle := none }

/-- The array of the C9 counterexample: spacings 5e-9 and 1e-8 (a 100%
relative spacing variation), with all values within `np.isclose` tolerance
of zero. -/
def c9Array : List ℚ :=
  [1 / 200000000, 1 / 100000000, 1 / 50000000]

/-! ## Theorems -/

mutual

/-- Reading back a written metadata tree reproduces it exactly. -/
theorem readMeta_writeMeta : ∀ m : Meta, readMeta (writeMeta m) = m
  | .num _ => rfl
  | .boolV _ => rfl
  | .str _ => rfl
  | .strList _ => rfl
  | .arr _ => rfl
  | .node es => by
      simp only [writeMeta, readMeta]
      exact congrArg Meta.node (readEntries_writeEntries es)

/-- Reading back written mapping entries reproduces them exactly. -/
theorem readEntries_writeEntries :
    ∀ es : List (String × Meta),
      readMeta.readEntries (writeMeta.writeEntries es) = es
  | [] => rfl
  | (k, v) :: rest => by
      simp only [writeMeta.writeEntries, readMeta.readEntries]
      exact congrArg₂ (· :: ·)
        (congrArg (Prod.mk k) (readMeta_writeMeta v))
        (readEntries_writeEntries rest)

end

theorem readAxis_writeAxis (i : ℕ) (a : AxisSpec) :
    readAxis (writeAxis i a) = some a := by
  cases a <;> rfl

theorem getAttrNat_writeAxis_index (i : ℕ) (a : AxisSpec) :
    getAttrNat (writeAxis i a) "index" = some i := by
  cases a <;> rfl

theorem findAxis_enumFrom (axes : List AxisSpec) :
    ∀ (k j : ℕ) (h : j < axes.length),
      findAxisWithIndex
        ((List.enumFrom k axes).map
          fun p => ("axis-" ++ toString p.1, writeAxis p.1 p.2)) (k + j) =
        some (writeAxis (k + j) (axes.get ⟨j, h⟩)) := by
  induction axes with
  | nil => intro k j h; exact absurd h (Nat.not_lt_zero j)
  | cons a rest ih =>
      intro k j h
      match j with
      | 0 =>
          simp only [List.enumFrom, List.map, findAxisWithIndex, List.find?,
            Nat.add_zero, getAttrNat_writeAxis_index, decide_True,
            Option.map_some, List.get, Option.map]
      | j' + 1 =>
          have hne : ¬ (some k = some (k + (j' + 1))) := by
            intro hc
            exact absurd (Option.some.inj hc) (by omega)
          have hrec := ih (k + 1) j' (Nat.lt_of_succ_lt_succ h)
          simp only [List.enumFrom, List.map, findAxisWithIndex, List.find?,
            getAttrNat_writeAxis_index, decide_eq_true_eq] at hrec ⊢
          rw [decide_eq_false hne]
          simpa [Nat.add_assoc, Nat.add_comm 1 j'] using hrec

theorem readAxesFrom_writeAxes (axes : List AxisSpec) :
    ∀ (n j : ℕ), j + n = axes.length →
      readAxesFrom (writeAxes axes) j n = some (axes.drop j) := by
  intro n
  induction n with
  | zero =>
      intro j hj
      rw [readAxesFrom]
      rw [Nat.add_zero] at hj
      rw [hj, List.drop_length]
  | succ n ih =>
      intro j hj
      have hjlt : j < axes.length := by omega
      have hfind := findAxis_enumFrom axes 0 j hjlt
      rw [Nat.zero_add] at hfind
      have hrest := ih (j + 1) (by omega)
      rw [readAxesFrom]
      rw [writeAxes, List.enum]
      rw [writeAxes, List.enum] at hrest
      rw [hfind]
      simp only [Option.bind_eq_bind, Option.some_bind, readAxis_writeAxis,
        hrest, Option.some_bind]
      rw [List.drop_eq_getElem_cons hjlt]
      rfl

/-- Reassembling the written axes recovers the original ordered list. -/
theorem readAxes_writeAxes (axes : List AxisSpec) :
    readAxes (writeAxes axes) = some axes := by
  have hlen : (writeAxes axes).length = axes.length := by
    simp [writeAxes, List.enum_length]
  rw [readAxes, hlen]
  simpa using readAxesFrom_writeAxes axes axes.length 0 (by omega)

theorem firstElementDtype_of_writable (d : SignalData)
    (h : dataWritable d = true) : ∃ dt, firstElementDtype d = some dt := by
  cases d with
  | dense dt shape vals =>
      cases shape with
      | nil => exact absurd h (by simp [dataWritable])
      | cons n tl =>
          refine ⟨dt, ?_⟩
          simp only [dataWritable, bne_iff_ne, ne_eq] at h
          simp [firstElementDtype, h]
  | ragged rows =>
      cases rows with
      | nil => exact absurd h (by simp [dataWritable])
      | cons r0 tl => exact ⟨r0.dtype, rfl⟩

theorem map_retag (dt : String) :
    ∀ tl : List RaggedRow, (∀ r ∈ tl, r.dtype = dt) →
      tl.map (fun r => (⟨dt, r.vals⟩ : RaggedRow)) = tl := by
  intro tl
  induction tl with
  | nil => intro _; rfl
  | cons r rest ih =>
      intro hall
      have hr : r.dtype = dt := hall r (by simp)
      have : (⟨dt, r.vals⟩ : RaggedRow) = r := by
        cases r with
        | mk d v => simp only at hr; rw [hr]
      rw [List.map_cons, this, ih fun x hx => hall x (by simp [hx])]

theorem readSignalData_writeSignalData (d : SignalData)
    (h : dataWritable d = true) :
    readSignalData (writeSignalData d) = some d := by
  cases d with
  | dense dt shape vals => rfl
  | ragged rows =>
      cases rows with
      | nil => exact absurd h (by simp [dataWritable])
      | cons r0 tl =>
          have h' : ∀ r ∈ tl, r.dtype = r0.dtype := by
            simpa [dataWritable] using h
          simp only [writeSignalData, List.head?_cons, Option.map_some,
            Option.getD_some, readSignalData, List.map_cons, List.map_map,
            Option.some.injEq, SignalData.ragged.injEq, List.cons.injEq]
          constructor
          · rfl
          · have := map_retag r0.dtype tl h'
            simpa [Function.comp] using this

/-- A title that is nonempty and free of the path separator is unchanged
by sanitization. -/
theorem sanitizeGroupName_id (title : String) (hne : title ≠ "")
    (hsl : title.data.contains '/' = false) :
    sanitizeGroupName title = title := by
  simp only [sanitizeGroupName, if_neg hne]
  rw [if_neg (by simpa using hsl)]

theorem updEntry_self (key : String) (f : Meta → Meta) :
    ∀ es kv, (es.find? fun p => p.1 = key) = some kv → f kv.2 = kv.2 →
      updEntry key f es = es := by
  intro es
  induction es with
  | nil => intro kv h _; simp at h
  | cons e rest ih =>
      intro kv h hf
      by_cases hk : e.1 = key
      · rw [List.find?_cons_of_pos _ (by simpa using hk)] at h
        injection h with h2
        subst h2
        cases e with
        | mk k v =>
            simp only at hk hf
            simp [updEntry, hk, hf]
      · rw [List.find?_cons_of_neg _ (by simpa using hk)] at h
        cases e with
        | mk k v =>
            simp only at hk
            simp [updEntry, hk, ih kv h hf]

/-- Re-storing the very title a metadata tree already holds is the
identity. -/
theorem metaSetTitle_self (m : Meta) (t : String)
    (h : getTitle m = some t) : metaSetTitle m t = m := by
  cases m with
  | node es =>
      cases hg : metaGet (.node es) "General" with
      | none => simp [getTitle, hg] at h
      | some g =>
          cases g with
          | node gs =>
              cases hgt : metaGet (.node gs) "title" with
              | none => simp [getTitle, hg, hgt] at h
              | some tv =>
                  cases tv with
                  | str s =>
                      have hst : s = t := by
                        simpa [getTitle, hg, hgt] using h
                      subst hst
                      rw [metaGet] at hg
                      obtain ⟨kvG, hfg, hsndG⟩ := Option.map_eq_some'.mp hg
                      rw [metaGet] at hgt
                      obtain ⟨kvT, hft, hsndT⟩ := Option.map_eq_some'.mp hgt
                      have hF : (fun g => metaUpd g "title" fun _ =>
                          Meta.str s) kvG.2 = kvG.2 := by
                        rw [hsndG]
                        simp only [metaUpd]
                        rw [updEntry_self "title" _ gs kvT hft (by rw [hsndT])]
                      simp only [metaSetTitle, metaUpd]
                      rw [updEntry_self "General" _ es kvG hfg hF]
                  | num q => simp [getTitle, hg, hgt] at h
                  | boolV b => simp [getTitle, hg, hgt] at h
                  | strList xs => simp [getTitle, hg, hgt] at h
                  | arr xs => simp [getTitle, hg, hgt] at h
                  | node ns => simp [getTitle, hg, hgt] at h
          | num q => simp only [getTitle, hg] at h; simp [metaGet] at h
          | boolV b => simp only [getTitle, hg] at h; simp [metaGet] at h
          | str s => simp only [getTitle, hg] at h; simp [metaGet] at h
          | strList xs => simp only [getTitle, hg] at h; simp [metaGet] at h
          | arr xs => simp only [getTitle, hg] at h; simp [metaGet] at h
  | num q => simp [getTitle, metaGet] at h
  | boolV b => simp [getTitle, metaGet] at h
  | str s => simp [getTitle, metaGet] at h
  | strList xs => simp [getTitle, metaGet] at h
  | arr xs => simp [getTitle, metaGet] at h

theorem writerBody_run (signal : SignalRecord) (opts : WriteOptions)
    (wd : Bool) (f : FileHandle) (ev0 : List FsEvent) (reused : Bool)
    (title : String) (dt : String)
    (htitle : getTitle signal.metadata = some title)
    (hdt : firstElementDtype signal.data = some dt) :
    writerBody signal opts wd f ev0 reused =
      (.ok { file := writtenFile signal (sanitizeGroupName title) wd,
             groupName := sanitizeGroupName title,
             handleMode := f.mode, reusedHandle := reused,
             closed := opts.close_file, signalAfter := signal },
       (if opts.close_file then
          ev0 ++ [.writeRootAttrs, .requireGroup "Experiments",
            .requireGroup (sanitizeGroupName title),
            .writeGroup (sanitizeGroupName title), .closeFile]
        else
          ev0 ++ [.writeRootAttrs, .requireGroup "Experiments",
            .requireGroup (sanitizeGroupName title),
            .writeGroup (sanitizeGroupName title)])) := by
  rw [writerBody, htitle, hdt]
  simp only [writtenFile]
  by_cases hc : opts.close_file <;> simp [hc]

theorem writerBody_ok (signal : SignalRecord) (opts : WriteOptions)
    (wd : Bool) (f : FileHandle) (ev0 : List FsEvent) (reused : Bool)
    (out : WriteOut) (ev : List FsEvent)
    (hok : writerBody signal opts wd f ev0 reused = (.ok out, ev)) :
    ∃ title, getTitle signal.metadata = some title ∧
      out.groupName = sanitizeGroupName title ∧
      out.signalAfter = signal ∧
      out.file = writtenFile signal (sanitizeGroupName title) wd := by
  rw [writerBody] at hok
  cases htitle : getTitle signal.metadata with
  | none => rw [htitle] at hok; simp at hok
  | some title =>
      rw [htitle] at hok
      cases hdt : firstElementDtype signal.data with
      | none => rw [hdt] at hok; simp at hok
      | some dt =>
          rw [hdt] at hok
          rw [Prod.mk.injEq] at hok
          obtain ⟨h1, _⟩ := hok
          injection h1 with h2
          subst h2
          exact ⟨title, rfl, rfl, rfl, rfl⟩

theorem file_writer_ok (absPath : String → String) (filename : String)
    (signal : SignalRecord) (opts : WriteOptions) (out : WriteOut)
    (ev : List FsEvent)
    (hok : file_writer absPath filename signal opts = (.ok out, ev)) :
    ∃ title, getTitle signal.metadata = some title ∧
      out.groupName = sanitizeGroupName title ∧
      out.signalAfter = signal ∧
      ∃ wd, opts.write_dataset = .bool wd ∧
        out.file = writtenFile signal (sanitizeGroupName title) wd := by
  rw [file_writer] at hok
  cases hwd : opts.write_dataset with
  | nonBool => rw [hwd] at hok; simp at hok
  | bool wd =>
      rw [hwd] at hok
      simp only at hok
      by_cases hre : signal.lazyAttr ∧
          absPath filename = originalPath signal.tmp_parameters
      · rw [if_pos hre] at hok
        cases hbh : signal.backingHandle with
        | none =>
            rw [hbh] at hok
            simp only at hok
            by_cases hm : (opts.mode.getD (if wd then "w" else "a")) ≠ "a" ∧
                ¬ wd = true
            · rw [if_pos hm] at hok; simp at hok
            · rw [if_neg hm] at hok
              obtain ⟨t, h1, h2, h3, h4⟩ := writerBody_ok _ _ _ _ _ _ _ _ hok
              exact ⟨t, h1, h2, h3, wd, rfl, h4⟩
        | some h =>
            rw [hbh] at hok
            simp only at hok
            by_cases hm : h.mode = "r"
            · rw [if_pos hm] at hok; simp at hok
            · rw [if_neg hm] at hok
              obtain ⟨t, h1, h2, h3, h4⟩ := writerBody_ok _ _ _ _ _ _ _ _ hok
              exact ⟨t, h1, h2, h3, wd, rfl, h4⟩
      · rw [if_neg hre] at hok
        simp only at hok
        by_cases hm : (opts.mode.getD (if wd then "w" else "a")) ≠ "a" ∧
            ¬ wd = true
        · rw [if_pos hm] at hok; simp at hok
        · rw [if_neg hm] at hok
          obtain ⟨t, h1, h2, h3, h4⟩ := writerBody_ok _ _ _ _ _ _ _ _ hok
          exact ⟨t, h1, h2, h3, wd, rfl, h4⟩

theorem file_writer_run (absPath : String → String) (filename : String)
    (signal : SignalRecord) (opts : WriteOptions) (title dt : String)
    (hwd : opts.write_dataset = .bool true)
    (htitle : getTitle signal.metadata = some title)
    (hdt : firstElementDtype signal.data = some dt)
    (hnc : ∀ h, signal.backingHandle = some h → h.mode ≠ "r") :
    ∃ ev hm ru,
      file_writer absPath filename signal opts =
        (.ok { file := writtenFile signal (sanitizeGroupName title) true,
               groupName := sanitizeGroupName title,
               handleMode := hm, reusedHandle := ru,
               closed := opts.close_file, signalAfter := signal }, ev) := by
  rw [file_writer, hwd]
  simp only
  by_cases hre : signal.lazyAttr ∧
      absPath filename = originalPath signal.tmp_parameters
  · rw [if_pos hre]
    cases hbh : signal.backingHandle with
    | none =>
        simp only
        rw [if_neg (by simp)]
        exact ⟨_, _, _, writerBody_run _ _ _ _ _ _ _ _ htitle hdt⟩
    | some h =>
        simp only
        rw [if_neg (hnc h hbh)]
        exact ⟨_, _, _, writerBody_run _ _ _ _ _ _ _ _ htitle hdt⟩
  · rw [if_neg hre]
    simp only
    rw [if_neg (by simp)]
    exact ⟨_, _, _, writerBody_run _ _ _ _ _ _ _ _ htitle hdt⟩

/-! ## Reader evaluation lemmas -/

theorem readExperiment_writeExperimentGroup (signal : SignalRecord)
    (groupName : String) (hdata : dataWritable signal.data = true) :
    readExperiment (.group (writeExperimentGroup signal groupName true)) =
      some ⟨signal.data, signal.axes,
        metaSetTitle signal.metadata groupName,
        signal.original_metadata⟩ := by
  simp only [readExperiment, writeExperimentGroup, if_pos trivial,
    List.cons_append, List.nil_append]
  rw [show getEntry [("data", writeSignalData signal.data),
      ("axes", .group (writeAxes signal.axes)),
      ("metadata", writeMeta (metaSetTitle signal.metadata groupName)),
      ("original_metadata", writeMeta signal.original_metadata)] "data" =
      some (writeSignalData signal.data) by simp [getEntry]]
  rw [show getEntry [("data", writeSignalData signal.data),
      ("axes", .group (writeAxes signal.axes)),
      ("metadata", writeMeta (metaSetTitle signal.metadata groupName)),
      ("original_metadata", writeMeta signal.original_metadata)] "axes" =
      some (.group (writeAxes signal.axes)) by simp [getEntry]]
  rw [show getEntry [("data", writeSignalData signal.data),
      ("axes", .group (writeAxes signal.axes)),
      ("metadata", writeMeta (metaSetTitle signal.metadata groupName)),
      ("original_metadata", writeMeta signal.original_metadata)]
      "metadata" =
      some (writeMeta (metaSetTitle signal.metadata groupName)) by
        simp [getEntry]]
  rw [show getEntry [("data", writeSignalData signal.data),
      ("axes", .group (writeAxes signal.axes)),
      ("metadata", writeMeta (metaSetTitle signal.metadata groupName)),
      ("original_metadata", writeMeta signal.original_metadata)]
      "original_metadata" =
      some (writeMeta signal.original_metadata) by simp [getEntry]]
  simp [readSignalData_writeSignalData _ hdata, readAxes_writeAxes,
    readMeta_writeMeta]

theorem file_reader_written (groupName : String)
    (expg : List (String × CValue)) (lazy : Bool) :
    file_reader [("file_format", .aStr "HyperSpy"),
        ("file_format_version", .aStr version),
        ("Experiments", .group [(groupName, .group expg)])] lazy =
      match readExperiment (.group expg) with
      | some r => .ok ([], [r])
      | none => .error .structureError := by
  rw [file_reader]
  rw [show getEntry [("file_format", CValue.aStr "HyperSpy"),
      ("file_format_version", .aStr version),
      ("Experiments", .group [(groupName, .group expg)])] "file_format" =
      some (.aStr "HyperSpy") by simp [getEntry]]
  simp only
  rw [show getEntry [("file_format", CValue.aStr "HyperSpy"),
      ("file_format_version", .aStr version),
      ("Experiments", .group [(groupName, .group expg)])]
      "file_format_version" = some (.aStr version) by simp [getEntry]]
  simp only [if_pos rfl]
  rw [show getEntry [("file_format", CValue.aStr "HyperSpy"),
      ("file_format_version", .aStr version),
      ("Experiments", .group [(groupName, .group expg)])] "Experiments" =
      some (.group [(groupName, .group expg)]) by simp [getEntry]]
  simp only
  cases hre : readExperiment (.group expg) with
  | none => simp [readExperiments, hre]
  | some r => simp [readExperiments, hre]

/-! ## Claim theorems -/

/-- C5: in the dataset store step, an out-of-core (dask) source array is
streamed (block-by-block `da.store`) after being rechunked to the
destination's chunk shape whenever its chunking differs; a fully in-memory
C-contiguous array is written with a single bulk `write_direct`; any other
in-memory array is written by element-wise assignment — and in all three
paths the destination receives the source values. -/
theorem store_data_strategy (data : ArrayValue) (dset : Dset) :
    (∀ chunks vals, data = .dask chunks vals →
        (store_data data dset).method = .streamCopy ∧
        (store_data data dset).dset.contents = vals ∧
        (chunks ≠ dset.chunks →
          (store_data data dset).streamedChunks = some dset.chunks)) ∧
    (∀ vals, data = .np .cContiguous vals →
        (store_data data dset).method = .writeDirect ∧
        (store_data data dset).dset.contents = vals) ∧
    (∀ vals, data = .np .nonContiguous vals →
        (store_data data dset).method = .elementAssign ∧
        (store_data data dset).dset.contents = vals) := by
  refine ⟨?_, ?_, ?_⟩
  · rintro chunks vals rfl
    by_cases hc : chunks = dset.chunks
    · subst hc
      refine ⟨?_, ?_, ?_⟩ <;> simp [store_data]
    · refine ⟨?_, ?_, ?_⟩ <;> simp [store_data, hc]
  · rintro vals rfl
    exact ⟨rfl, rfl⟩
  · rintro vals rfl
    exact ⟨rfl, rfl⟩

/-- Witness for C5 at concrete inputs: a mis-chunked dask array is
streamed with the destination's chunking, a contiguous numpy array is
written directly, a non-contiguous one element-wise. -/
theorem store_data_strategy_witness :
    (store_data (.dask [2] [1, 2, 3]) ⟨[3], [0, 0, 0]⟩).method =
      .streamCopy ∧
    (store_data (.dask [2] [1, 2, 3]) ⟨[3], [0, 0, 0]⟩).streamedChunks =
      some [3] ∧
    (store_data (.np .cContiguous [5]) ⟨[1], [0]⟩).method = .writeDirect ∧
    (store_data (.np .nonContiguous [5]) ⟨[1], [0]⟩).method =
      .elementAssign :=
  ⟨((store_data_strategy (.dask [2] [1, 2, 3]) ⟨[3], [0, 0, 0]⟩).1
      [2] [1, 2, 3] rfl).1,
   ((store_data_strategy (.dask [2] [1, 2, 3]) ⟨[3], [0, 0, 0]⟩).1
      [2] [1, 2, 3] rfl).2.2 (by decide),
   ((store_data_strategy (.np .cContiguous [5]) ⟨[1], [0]⟩).2.1
      [5] rfl).1,
   ((store_data_strategy (.np .nonContiguous [5]) ⟨[1], [0]⟩).2.2
      [5] rfl).1⟩

/-- C8: the variable-length dataset created for a ragged array carries the
dtype of the array's first element, and that single stored dtype tag
governs every row of the written dataset. -/
theorem ragged_dtype_from_first (data : List RaggedRow) (chunks : Option ℕ)
    (r0 : RaggedRow) (rest : List RaggedRow) (hdata : data = r0 :: rest) :
    ∃ dset, get_object_dset data chunks = some dset ∧
      dset.dtype = r0.dtype ∧
      ∀ i, i < data.length →
        storedRowDtype (writeRaggedRows dset data) i = some r0.dtype := by
  subst hdata
  refine ⟨_, rfl, rfl, ?_⟩
  intro i hi
  simp only [writeRaggedRows, storedRowDtype, List.length_map]
  rw [if_pos hi]

/-- Witness for C8: rows with differing dtypes are all stored under the
first row's dtype. -/
theorem ragged_dtype_from_first_witness :
    ∃ dset,
      get_object_dset [⟨"float64", [1, 2, 3]⟩, ⟨"int16", [4]⟩] none =
        some dset ∧
      dset.dtype = (⟨"float64", [1, 2, 3]⟩ : RaggedRow).dtype ∧
      ∀ i, i < ([⟨"float64", [1, 2, 3]⟩,
          (⟨"int16", [4]⟩ : RaggedRow)]).length →
        storedRowDtype
          (writeRaggedRows dset [⟨"float64", [1, 2, 3]⟩, ⟨"int16", [4]⟩]) i =
          some (⟨"float64", [1, 2, 3]⟩ : RaggedRow).dtype :=
  ragged_dtype_from_first [⟨"float64", [1, 2, 3]⟩, ⟨"int16", [4]⟩] none
    ⟨"float64", [1, 2, 3]⟩ [⟨"int16", [4]⟩] rfl

/-- C3: when the target path resolves to the file already backing a
lazily-loaded array of the record and the existing handle is open
read-only, `file_writer` raises the mode-conflict `OSError` immediately,
with an empty filesystem trace — before writing any bytes. -/
theorem mode_conflict_error (absPath : String → String) (filename : String)
    (signal : SignalRecord) (opts : WriteOptions) (wd : Bool)
    (h : FileHandle)
    (hwd : opts.write_dataset = .bool wd)
    (hlazy : signal.lazyAttr = true)
    (hpath : absPath filename = originalPath signal.tmp_parameters)
    (hh : signal.backingHandle = some h)
    (hmode : h.mode = "r") :
    file_writer absPath filename signal opts =
      (.error .osErrorReadOnly, []) := by
  rw [file_writer, hwd]
  simp only
  rw [if_pos ⟨hlazy, hpath⟩, hh]
  simp only
  rw [if_pos hmode]

/-- Witness for C3: a lazily-backed record with a read-only handle at the
resolved target path makes `file_writer` fail with the mode-conflict
error and an empty trace. -/
theorem mode_conflict_error_witness :
    file_writer id "dir/f.hspy" lazyReadOnlySignal sampleOpts =
      (.error .osErrorReadOnly, []) :=
  mode_conflict_error id "dir/f.hspy" lazyReadOnlySignal sampleOpts true
    ⟨"r"⟩ rfl rfl (by decide) rfl rfl

/-- C4 counterexample: with a lazily-backed record whose writable handle
is reused (same resolved path, handle mode `r+`), `file_writer` accepts
`write_dataset=False` together with the truncating mode `'w'`: no
configuration error is raised and the filesystem is touched, contradicting
the claim that this combination always raises before any I/O. -/
theorem write_dataset_config_counterexample :
    exceptIsOk (file_writer id "f.hspy" lazyWritableSignal
      noDatasetTruncOpts).1 = true ∧
    (file_writer id "f.hspy" lazyWritableSignal noDatasetTruncOpts).2 ≠
      [] := by
  constructor
  · rfl
  · decide

/-- C4 amended: `file_writer` raises the boolean-check `ValueError` before
any filesystem interaction whenever `write_dataset` is not a boolean.
When `write_dataset=False` is combined with an explicit non-append (in
particular truncating) open mode, the outcome depends on whether an
already-open backing handle of a lazily-backed record is picked up at the
resolved target path: if none is picked up (the record is not lazy, the
path differs, or there is no handle), the mode/`write_dataset`
configuration `ValueError` is raised before any filesystem interaction;
if one is picked up but is open read-only, the mode-conflict `OSError` is
raised instead — likewise before any filesystem interaction.  (If a
writable handle is picked up, no error is raised at all — the
counterexample.)  In every error case nothing on the filesystem is
touched. -/
theorem write_dataset_config_amended :
    (∀ (absPath : String → String) (filename : String)
        (signal : SignalRecord) (opts : WriteOptions),
      opts.write_dataset = .nonBool →
      file_writer absPath filename signal opts =
        (.error .valueErrorNonBool, [])) ∧
    (∀ (absPath : String → String) (filename : String)
        (signal : SignalRecord) (opts : WriteOptions) (m : String),
      opts.write_dataset = .bool false →
      opts.mode = some m → m ≠ "a" →
      (signal.lazyAttr = false ∨
        absPath filename ≠ originalPath signal.tmp_parameters ∨
        signal.backingHandle = none) →
      file_writer absPath filename signal opts =
        (.error .valueErrorMode, [])) ∧
    (∀ (absPath : String → String) (filename : String)
        (signal : SignalRecord) (opts : WriteOptions) (wd : Bool)
        (h : FileHandle),
      opts.write_dataset = .bool wd →
      signal.lazyAttr = true →
      absPath filename = originalPath signal.tmp_parameters →
      signal.backingHandle = some h →
      h.mode = "r" →
      file_writer absPath filename signal opts =
        (.error .osErrorReadOnly, [])) := by
  refine ⟨?_, ?_, ?_⟩
  · intro absPath filename signal opts hnb
    rw [file_writer, hnb]
  · intro absPath filename signal opts m hwd hm hma hdisj
    rw [file_writer, hwd]
    simp only
    have hf0 : (if signal.lazyAttr ∧
        absPath filename = originalPath signal.tmp_parameters then
        signal.backingHandle else none) = none := by
      rcases hdisj with h | h | h
      · exact if_neg fun hc => absurd (h ▸ hc.1) (by simp)
      · exact if_neg fun hc => h hc.2
      · split
        · exact h
        · rfl
    rw [hf0]
    simp only
    rw [hm]
    simp only [Option.getD_some]
    rw [if_pos ⟨hma, by simp⟩]
  · intro absPath filename signal opts wd h hwd hlazy hpath hh hmode
    rw [file_writer, hwd]
    simp only
    rw [if_pos ⟨hlazy, hpath⟩, hh]
    simp only
    rw [if_pos hmode]

/-- Witness for C4 amended: on a plain (non-lazy) record both
configuration errors fire with an empty filesystem trace, and on a
lazily-backed record with a read-only handle at the resolved path the
same options yield the mode-conflict error, likewise with an empty
trace. -/
theorem write_dataset_config_amended_witness :
    file_writer id "x.hspy" sampleSignal nonBoolOpts =
      (.error .valueErrorNonBool, []) ∧
    file_writer id "x.hspy" sampleSignal noDatasetTruncOpts =
      (.error .valueErrorMode, []) ∧
    file_writer id "dir/f.hspy" lazyReadOnlySignal noDatasetTruncOpts =
      (.error .osErrorReadOnly, []) :=
  ⟨write_dataset_config_amended.1 id "x.hspy" sampleSignal nonBoolOpts rfl,
   write_dataset_config_amended.2.1 id "x.hspy" sampleSignal
     noDatasetTruncOpts "w" rfl rfl (by decide) (Or.inl rfl),
   write_dataset_config_amended.2.2 id "dir/f.hspy" lazyReadOnlySignal
     noDatasetTruncOpts false ⟨"r"⟩ rfl rfl (by decide) rfl rfl⟩

/-- C6: every container produced by a successful `file_writer` call
carries the `file_format` attribute and a `file_format_version` attribute
equal to the writer's current library version on its root node. -/
theorem version_stamped_on_write (absPath : String → String)
    (filename : String) (signal : SignalRecord) (opts : WriteOptions)
    (out : WriteOut) (ev : List FsEvent)
    (hok : file_writer absPath filename signal opts = (.ok out, ev)) :
    getEntry out.file "file_format" = some (.aStr "HyperSpy") ∧
    getEntry out.file "file_format_version" = some (.aStr version) := by
  obtain ⟨t, _, _, _, wd, _, hfile⟩ := file_writer_ok _ _ _ _ _ _ hok
  rw [hfile]
  constructor <;> simp [writtenFile, getEntry]

/-- Witness for C6 on the concrete sample write. -/
theorem version_stamped_on_write_witness :
    getEntry sampleOut.file "file_format" = some (.aStr "HyperSpy") ∧
    getEntry sampleOut.file "file_format_version" = some (.aStr version) :=
  version_stamped_on_write id "destination.hspy" sampleSignal sampleOpts
    sampleOut sampleResult.2 rfl

/-- C7: the version check precedes structural interpretation on read — a
root without the required format tag is rejected outright as not a valid
container, while a recognized container stamped with an unknown version is
read best-effort with an `unknownVersion` warning. -/
theorem version_check_before_structure :
    (∀ (root : List (String × CValue)) (lazy : Bool),
      getEntry root "file_format" = none →
      file_reader root lazy = .error .invalidFormat) ∧
    (∀ (root : List (String × CValue)) (lazy : Bool) (v : String)
        (exps : List (String × CValue)) (signals : List ReadSignal),
      getEntry root "file_format" = some (.aStr "HyperSpy") →
      getEntry root "file_format_version" = some (.aStr v) →
      v ≠ version →
      getEntry root "Experiments" = some (.group exps) →
      readExperiments exps = some signals →
      file_reader root lazy = .ok ([.unknownVersion], signals)) := by
  constructor
  · intro root lazy h
    rw [file_reader, h]
  · intro root lazy v exps signals h1 h2 hv h3 h4
    rw [file_reader, h1]
    simp only [if_pos rfl]
    rw [h2]
    simp only
    rw [h3]
    simp only
    rw [h4, if_neg hv]
    simp

/-- Witness for C7: an attribute-less root is rejected; a root with the
format tag and the unknown version `999.0` over an empty `Experiments`
group is read with a warning. -/
theorem version_check_before_structure_witness :
    file_reader [] false = .error .invalidFormat ∧
    file_reader [("file_format", .aStr "HyperSpy"),
      ("file_format_version", .aStr "999.0"),
      ("Experiments", .group [])] false = .ok ([.unknownVersion], []) :=
  ⟨version_check_before_structure.1 [] false rfl,
   version_check_before_structure.2
     [("file_format", .aStr "HyperSpy"),
      ("file_format_version", .aStr "999.0"),
      ("Experiments", .group [])] false "999.0" [] []
     (by simp [getEntry]) (by simp [getEntry]) (by decide)
     (by simp [getEntry]) rfl⟩

/-- C1: for every representable record (dense or ragged data with a first
element and a consistent ragged dtype, arbitrary uniform and non-uniform
axes, arbitrary — in particular unicode — metadata, a string title, no
read-only lazy backing handle), writing with `file_writer` and reading the
container back reproduces the data, the axes and both metadata trees
exactly, up to the documented lossy sanitization of the stored title; a
title without the path separator is reproduced identically. -/
theorem roundtrip_read_write (absPath : String → String)
    (filename : String) (signal : SignalRecord) (opts : WriteOptions)
    (title : String) (lazy : Bool)
    (hwd : opts.write_dataset = .bool true)
    (htitle : getTitle signal.metadata = some title)
    (hdata : dataWritable signal.data = true)
    (hnc : ∀ h, signal.backingHandle = some h → h.mode ≠ "r") :
    ∃ out ev r,
      file_writer absPath filename signal opts = (.ok out, ev) ∧
      file_reader out.file lazy = .ok ([], [r]) ∧
      r.data = signal.data ∧
      r.axes = signal.axes ∧
      r.original_metadata = signal.original_metadata ∧
      r.metadata = metaSetTitle signal.metadata (sanitizeGroupName title) ∧
      (title ≠ "" → title.data.contains '/' = false →
        r.metadata = signal.metadata) := by
  obtain ⟨dt, hdt⟩ := firstElementDtype_of_writable _ hdata
  obtain ⟨ev, hm, ru, hrun⟩ :=
    file_writer_run absPath filename signal opts title dt hwd htitle hdt hnc
  refine ⟨_, ev,
    ⟨signal.data, signal.axes,
      metaSetTitle signal.metadata (sanitizeGroupName title),
      signal.original_metadata⟩, hrun, ?_, rfl, rfl, rfl, rfl, ?_⟩
  · show file_reader (writtenFile signal (sanitizeGroupName title) true)
      lazy = _
    rw [writtenFile, file_reader_written,
      readExperiment_writeExperimentGroup signal _ hdata]
  · intro hne hsl
    rw [sanitizeGroupName_id title hne hsl, metaSetTitle_self _ _ htitle]

/-- Witness for C1 on a record with ragged data of heterogeneous row
shapes, an explicit (non-uniform) axis, and unicode metadata whose title
contains no path separator. -/
theorem roundtrip_read_write_witness :
    ∃ out ev r,
      file_writer id "dest.hspy" raggedSignal sampleOpts = (.ok out, ev) ∧
      file_reader out.file false = .ok ([], [r]) ∧
      r.data = raggedSignal.data ∧
      r.axes = raggedSignal.axes ∧
      r.original_metadata = raggedSignal.original_metadata ∧
      r.metadata =
        metaSetTitle raggedSignal.metadata (sanitizeGroupName "αβγ") ∧
      ("αβγ" ≠ "" → "αβγ".data.contains '/' = false →
        r.metadata = raggedSignal.metadata) :=
  roundtrip_read_write id "dest.hspy" raggedSignal sampleOpts "αβγ" false
    rfl rfl (by decide) (fun h hc => nomatch hc)

/-- C2: writing the 3×4 record titled `a/b` with one
UniformAxis{offset=0, scale=1/2, size=3} stores the experiment group under
the name `a-b`; reading the container back yields the 3×4 array, the axis
with scale 1/2, and the title `a-b` — the original `a/b` is not
recoverable. -/
theorem concrete_scenario_title_sanitization :
    sampleOut.groupName = "a-b" ∧
    ∃ r, file_reader sampleOut.file false = .ok ([], [r]) ∧
      r.data =
        .dense "float64" [3, 4] [0, 1, 2, 3, 4, 5, 6, 7, 8, 9, 10, 11] ∧
      r.axes = [.uniform 0 (1 / 2) 3 sampleAxisC] ∧
      getTitle r.metadata = some "a-b" :=
  ⟨rfl, ⟨_, rfl, rfl, rfl, rfl⟩⟩

/-- C10: `file_writer` does not mutate the record it is given — after a
successful call the record is the one passed in, with identical metadata
title, while only the on-disk group name carries the sanitized title. -/
theorem writer_does_not_mutate_signal (absPath : String → String)
    (filename : String) (signal : SignalRecord) (opts : WriteOptions)
    (out : WriteOut) (ev : List FsEvent)
    (hok : file_writer absPath filename signal opts = (.ok out, ev)) :
    out.signalAfter = signal ∧
    getTitle out.signalAfter.metadata = getTitle signal.metadata ∧
    (∀ title, getTitle signal.metadata = some title →
      out.groupName = sanitizeGroupName title) := by
  obtain ⟨t, ht, hgn, hsig, _⟩ := file_writer_ok _ _ _ _ _ _ hok
  refine ⟨hsig, by rw [hsig], ?_⟩
  intro title htitle
  rw [ht] at htitle
  injection htitle with h2
  rw [hgn, h2]

/-- Witness for C10 on the concrete sample write with the title `a/b`. -/
theorem writer_does_not_mutate_signal_witness :
    sampleOut.signalAfter = sampleSignal ∧
    getTitle sampleOut.signalAfter.metadata =
      getTitle sampleSignal.metadata ∧
    (∀ title, getTitle sampleSignal.metadata = some title →
      sampleOut.groupName = sanitizeGroupName title) :=
  writer_does_not_mutate_signal id "destination.hspy" sampleSignal
    sampleOpts sampleOut sampleResult.2 rfl

theorem c9_listMin : listMin c9Array = 1 / 200000000 := by
  simp only [listMin, c9Array, List.foldl]
  rw [min_def, if_pos (by rw [min_def, if_pos (by norm_num)]; norm_num)]
  rw [min_def, if_pos (by norm_num)]

theorem c9_absDiffBegin : absDiffBegin c9Array = 1 / 200000000 := by
  simp only [absDiffBegin, c9Array, List.getD_cons_zero, List.getD_cons_succ]
  rw [abs_of_nonpos (by norm_num)]
  norm_num

theorem c9_absDiffEnd : absDiffEnd c9Array = 1 / 100000000 := by
  simp only [absDiffEnd, c9Array, List.length_cons, List.length_nil,
    Nat.reduceAdd, Nat.reduceSub, List.getD_cons_zero, List.getD_cons_succ]
  rw [abs_of_nonneg (by norm_num)]
  norm_num

theorem c9_absDiffCompare : absDiffCompare c9Array = 1 / 200000000 := by
  rw [absDiffCompare, c9_absDiffBegin, c9_absDiffEnd]
  rw [abs_of_nonpos (by norm_num)]
  norm_num

theorem c9_isclose_min : npIsclose (listMin c9Array) 0 = true := by
  simp only [npIsclose, c9_listMin, decide_eq_true_eq, sub_zero, abs_zero,
    mul_zero, add_zero]
  rw [abs_of_nonneg (by norm_num)]
  norm_num

theorem c9_isclose_cmp : npIsclose (absDiffCompare c9Array) 0 = true := by
  simp only [npIsclose, c9_absDiffCompare, decide_eq_true_eq, sub_zero,
    abs_zero, mul_zero, add_zero]
  rw [abs_of_nonneg (by norm_num)]
  norm_num

/-- C9 counterexample: on `[5e-9, 1e-8, 2e-8]` with a uniform signal axis
requested, the relative variation of the spacing is 100% — far above 1% —
yet `_get_scale` emits no warning at all, because the minimum of the array
is within the `np.isclose` absolute tolerance of zero (so the
relative-variation check is skipped) and the absolute spacing difference
is itself within tolerance of zero (so the fallback warning is skipped
too).  The returned scale does equal `|first - last| / (size - 1)`. -/
theorem scale_warning_counterexample :
    relSpacingVariation c9Array > 1 / 100 ∧
    get_scale true c9Array = some (scaleFormula c9Array, []) ∧
    scaleFormula c9Array = 3 / 400000000 := by
  refine ⟨?_, ?_, ?_⟩
  · rw [relSpacingVariation, c9_absDiffCompare, c9_listMin]
    norm_num
  · rw [show c9Array = 1 / 200000000 :: 1 / 100000000 :: [1 / 50000000]
      from rfl]
    simp only [get_scale]
    rw [if_pos (by simp)]
    rw [if_neg (by rw [show (1 / 200000000 : ℚ) :: 1 / 100000000 ::
        [1 / 50000000] = c9Array from rfl, c9_isclose_min]; simp)]
    rw [if_neg (by rw [show (1 / 200000000 : ℚ) :: 1 / 100000000 ::
        [1 / 50000000] = c9Array from rfl, c9_isclose_cmp]; simp)]
    rfl
  · simp only [scaleFormula, c9Array, List.length_cons, List.length_nil,
      Nat.reduceAdd, Nat.reduceSub, List.getD_cons_zero,
      List.getD_cons_succ]
    rw [abs_of_nonpos (by norm_num)]
    norm_num

/-- C9 amended: for every axis array with at least two values the
extraction returns `|first - last| / (size - 1)` as the scale; and for an
array of at least three values with a uniform signal axis requested, the
relative-variation warning is emitted whenever the minimum of the array is
not within `np.isclose` tolerance of zero and the spacing variation
relative to that minimum exceeds 1%. -/
theorem scale_warning_amended :
    (∀ (u : Bool) (arr : List ℚ), 2 ≤ arr.length →
      (get_scale u arr).map Prod.fst = some (scaleFormula arr)) ∧
    (∀ arr : List ℚ, 3 ≤ arr.length →
      npIsclose (listMin arr) 0 = false →
      relSpacingVariation arr > 1 / 100 →
      ∃ ws, get_scale true arr = some (scaleFormula arr, ws) ∧
        ScaleWarning.relVariation ∈ ws) := by
  constructor
  · intro u arr hlen
    cases arr with
    | nil => simp at hlen
    | cons a0 tl =>
        cases tl with
        | nil => simp at hlen
        | cons a1 rest =>
            simp only [get_scale]
            by_cases h3 : 3 ≤ (a0 :: a1 :: rest).length
            · rw [if_pos h3]
              rfl
            · rw [if_neg h3]
              rfl
  · intro arr h3 hmin hrel
    cases arr with
    | nil => simp at h3
    | cons a0 tl =>
        cases tl with
        | nil => simp at h3
        | cons a1 rest =>
            simp only [get_scale]
            rw [if_pos h3, if_pos ⟨hmin, hrel, by trivial⟩]
            exact ⟨_, rfl, List.mem_append_left _ (by simp)⟩

theorem w9_listMin : listMin [(1 : ℚ), 2, 4] = 1 := by
  simp only [listMin, List.foldl]
  rw [min_def, if_pos (by rw [min_def, if_pos (by norm_num)]; norm_num)]
  rw [min_def, if_pos (by norm_num)]

theorem w9_isclose_min : npIsclose (listMin [(1 : ℚ), 2, 4]) 0 = false := by
  simp only [npIsclose, w9_listMin, decide_eq_false_iff_not, sub_zero,
    abs_zero, mul_zero, add_zero]
  rw [abs_of_nonneg (by norm_num)]
  norm_num

theorem w9_rel : relSpacingVariation [(1 : ℚ), 2, 4] > 1 / 100 := by
  have hb : absDiffBegin [(1 : ℚ), 2, 4] = 1 := by
    simp only [absDiffBegin, List.getD_cons_zero, List.getD_cons_succ]
    rw [abs_of_nonpos (by norm_num)]
    norm_num
  have he : absDiffEnd [(1 : ℚ), 2, 4] = 2 := by
    simp only [absDiffEnd, List.length_cons, List.length_nil,
      Nat.reduceAdd, Nat.reduceSub, List.getD_cons_zero,
      List.getD_cons_succ]
    rw [abs_of_nonneg (by norm_num)]
    norm_num
  rw [relSpacingVariation, absDiffCompare, hb, he, w9_listMin]
  rw [abs_of_nonpos (by norm_num)]
  norm_num

/-- Witness for C9 amended on `[1, 2, 4]`: scale 3/2 and the
relative-variation warning (spacing varies by 100% of the minimum 1). -/
theorem scale_warning_amended_witness :
    (get_scale true [(1 : ℚ), 2, 4]).map Prod.fst =
      some (scaleFormula [(1 : ℚ), 2, 4]) ∧
    ∃ ws, get_scale true [(1 : ℚ), 2, 4] =
        some (scaleFormula [(1 : ℚ), 2, 4], ws) ∧
      ScaleWarning.relVariation ∈ ws :=
  ⟨scale_warning_amended.1 true [(1 : ℚ), 2, 4] (by simp),
   scale_warning_amended.2 [(1 : ℚ), 2, 4] (by simp) w9_isclose_min
     w9_rel⟩

end RSciIO
